import Mathlib

/-
A shallow embedding of the conical library (src/conical.js): a client-side
multivariate-testing class that assigns a persistent user identity, segments
the user into a weighted variant, and fires lifecycle events.

Modelling conventions:
* localStorage is a flat association list from string keys to stored values.
  The program writes exactly two shapes of string there: the decimal string of
  a natural number (setId) and JSON.stringify of an object with string fields
  (setVariant).  `StoreVal` records the parse of the stored string, which is
  faithful because the two shapes are disjoint (parseInt of a JSON-object
  string is NaN, and the uid key "conical_uid" never collides with an
  "experiment_"-prefixed key).
* JavaScript numbers are modelled as rationals; the claims never hinge on
  binary floating-point rounding.
* The injected randomness source options.random is a stream of rationals with
  a cursor; each call to the source consumes one draw.
* Thrown errors are modelled with `Err`; event-handler and variant-callback
  invocations are recorded in a trace of `Ev` values (trigger fires every
  registered handler synchronously, so firing an event is what the trace
  records).
-/

/-- A JSON object whose fields are strings, as an ordered list of
key-value pairs. -/
abbrev JObj := List (String × String)

/-- JavaScript member access `o.k` on a JSON object: `none` models
`undefined` when the field is absent. -/
def jsonField (o : JObj) (k : String) : Option String :=
  match o with
  | [] => none
  | (k', v) :: rest => if k' = k then some v else jsonField rest k

/-- A value held in localStorage, recorded by its parse: the decimal string
of a natural number (written by setId) or a stringified JSON object
(written by setVariant). -/
inductive StoreVal where
  | numStr (n : Nat)
  | json (o : JObj)
deriving DecidableEq, Repr

/-- The key-value store modelling window.localStorage. -/
abbrev Store := List (String × StoreVal)

/-- `container.getItem(k)`: `none` models `null`. -/
def Store.get (st : Store) (k : String) : Option StoreVal :=
  match st with
  | [] => none
  | (k', v) :: rest => if k' = k then some v else Store.get rest k

/-- `container.setItem(k, v)`: overwrite the binding for `k`. -/
def Store.set (st : Store) (k : String) (v : StoreVal) : Store :=
  match st with
  | [] => [(k, v)]
  | (k', v') :: rest =>
    if k' = k then (k, v) :: rest else (k', v') :: Store.set rest k v

/-- `container.removeItem(k)`. -/
def Store.remove (st : Store) (k : String) : Store :=
  match st with
  | [] => []
  | (k', v') :: rest =>
    if k' = k then Store.remove rest k else (k', v') :: Store.remove rest k

/-- The ambient world: the persistent store together with the injected
randomness source (options.random), modelled as a stream of rational draws
and a cursor. -/
structure World where
  store : Store
  rands : Nat → ℚ
  ridx : Nat

/-- Call the randomness source once: yield the next draw and advance. -/
def World.draw (w : World) : ℚ × World :=
  (w.rands w.ridx, { w with ridx := w.ridx + 1 })

/-- A registered variant: its id and its weight after defaulting.  The
attached callback is identified by the variant id in event traces. -/
structure Variant where
  id : String
  weight : ℚ
deriving DecidableEq, Repr

/-- The per-instance state of a Conical experiment: the validated id, the
merged options (sampleSize, expiry), the conversion flag and the ordered
variant list.  The user id is not instance state; it lives in the store. -/
structure Conical where
  id : String
  sampleSize : ℚ
  expiry : Option ℚ
  hasConverted : Bool
  variants : List Variant
deriving DecidableEq

/-- The recognized constructor options and their defaults
(Object.assign over the defaults object). -/
structure Options where
  sampleSize : ℚ := 1
  expiry : Option ℚ := none

/-- The errors the class throws. -/
inductive Err where
  | validation
  | expired
  | noVariants
  | alreadyComplete
  | typeError
deriving DecidableEq, Repr

/-- Observable callback activity: firing the registered handlers of a named
event with a payload, and invoking a variant callback. -/
inductive Ev where
  | trigger (event : String) (variant : Option JObj)
  | run (variantId : String)
deriving DecidableEq, Repr

/-- The fixed localStorage key for the user id (this.uidKey). -/
def uidKey : String := "conical_uid"

/-- The per-experiment localStorage key
(this.experimentKey = this.storagePrefix + this.id). -/
def Conical.experimentKey (c : Conical) : String := "experiment_" ++ c.id

/-- getId(): parseInt(container.getItem(this.uidKey)); `none` models NaN
(missing key or a non-numeric string). -/
def getId (st : Store) : Option Nat :=
  match Store.get st uidKey with
  | some (.numStr n) => some n
  | _ => none

/-- setId(id): store the id under the uid key. -/
def setId (st : Store) (id : Nat) : Store :=
  Store.set st uidKey (.numStr id)

/-- hasId(): !!this.getId() — JavaScript truthiness, so both NaN and the
number 0 count as having no id. -/
def hasId (st : Store) : Bool :=
  match getId st with
  | some n => n != 0
  | none => false

/-- assignId(): reuse the stored id when hasId(), otherwise generate
Math.floor(random() * max + min) with min = 0, max = 100000, persist it and
return it. -/
def assignId (w : World) : Nat × World :=
  if hasId w.store then
    ((getId w.store).getD 0, w)
  else
    let (r, w') := w.draw
    let id := (⌊r * 100000⌋).toNat
    (id, { w' with store := setId w'.store id })

/-- The constructor.  `none` models a non-string id argument; a string id
equal to the literal string "undefined" is also rejected
(id === 'undefined' || typeof id !== 'string').  On success the options are
merged over the defaults and assignId() runs eagerly (its return value is
discarded). -/
def mkConical (id : Option String) (opts : Options) (w : World) :
    Except Err (Conical × World) :=
  match id with
  | none => .error .validation
  | some s =>
    if s = "undefined" then .error .validation
    else
      let c : Conical :=
        { id := s, sampleSize := opts.sampleSize, expiry := opts.expiry,
          hasConverted := false, variants := [] }
      .ok (c, (assignId w).2)

/-- The weight defaulting in addVariant: options.weight || 0.5, where a
weight of 0 is falsy and is therefore replaced by the default as well. -/
def weightOrDefault (weight : Option ℚ) : ℚ :=
  match weight with
  | some x => if x = 0 then 1/2 else x
  | none => 1/2

/-- addVariant(id, options, cb): validates the id the same way the
constructor does, defaults the weight and appends the variant. -/
def Conical.addVariant (c : Conical) (id : Option String) (weight : Option ℚ) :
    Except Err Conical :=
  match id with
  | none => .error .validation
  | some s =>
    if s = "undefined" then .error .validation
    else .ok { c with
      variants := c.variants ++ [{ id := s, weight := weightOrDefault weight }] }

/-- setVariant(variant): store JSON.stringify of an object whose single
field "id" holds the chosen variant's id, under the experiment key. -/
def Conical.setVariant (c : Conical) (st : Store) (variantId : String) : Store :=
  Store.set st c.experimentKey (.json [("id", variantId)])

/-- getVariant(): read the experiment key and JSON.parse the value;
`none` models undefined.  Under an experiment key the store only ever holds
a JSON object (the uid lives under a differently prefixed key), so the
numeric case collapses to undefined. -/
def Conical.getVariant (c : Conical) (st : Store) : Option JObj :=
  match Store.get st c.experimentKey with
  | some (.json o) => some o
  | _ => none

/-- clearVariant(): remove the experiment key. -/
def Conical.clearVariant (c : Conical) (st : Store) : Store :=
  Store.remove st c.experimentKey

/-- isParticipating(): !!this.getVariant() — a parsed JSON object is always
truthy. -/
def Conical.isParticipating (c : Conical) (st : Store) : Bool :=
  (c.getVariant st).isSome

/-- canParticipate(): clamp the sample size into [0,1] and compare the
stored user id against max * sampleSize.  A NaN id (`none`) compares false. -/
def Conical.canParticipate (c : Conical) (st : Store) : Bool :=
  let sampleSize := min (max c.sampleSize 0) 1
  match getId st with
  | some uid => decide ((uid : ℚ) < 100000 * sampleSize)
  | none => false

/-- hasExpired(): new Date() > this.options.expiry; with no expiry
configured the comparison against undefined is false. -/
def Conical.hasExpired (c : Conical) (now : ℚ) : Bool :=
  match c.expiry with
  | some e => decide (now > e)
  | none => false

/-- The loop of the allocateVariant closure inside participating():
accumulate weights and return the first variant whose cumulative weight has
reached the draw; return the sentinel when the list is exhausted. -/
def allocateVariantGo (r : ℚ) (cumerlativeWeight : ℚ) :
    List Variant → String
  | [] => "no-chosen-variant"
  | v :: vs =>
    let cw := cumerlativeWeight + v.weight
    if cw ≥ r then v.id else allocateVariantGo r cw vs

/-- allocateVariant(): draw already taken as `r`; walk the variants in
registration order.  Returns the id of the chosen variant object — the only
field its caller consumes. -/
def allocateVariant (variants : List Variant) (r : ℚ) : String :=
  allocateVariantGo r 0 variants

/-- participating(): draw one sample from the randomness source, allocate a
variant with it and persist the choice. -/
def Conical.participating (c : Conical) (w : World) : World :=
  let (randomVariant, w') := w.draw
  let allocatedVariant := allocateVariant c.variants randomVariant
  { w' with store := c.setVariant w'.store allocatedVariant }

/-- notParticipating(): persist the not-participating sentinel. -/
def Conical.notParticipating (c : Conical) (w : World) : World :=
  { w with store := c.setVariant w.store "not-participating" }

/-- segment(): the expired branch clears the variant before throwing, so the
world after the call is returned alongside the error, if any. -/
def Conical.segment (c : Conical) (now : ℚ) (w : World) : World × Option Err :=
  if c.hasExpired now then
    ({ w with store := c.clearVariant w.store }, some .expired)
  else if c.variants.length ≤ 0 then
    (w, some .noVariants)
  else if c.isParticipating w.store then
    (w, none)
  else if c.canParticipate w.store then
    (c.participating w, none)
  else
    (c.notParticipating w, none)

/-- start(): read the assignment; for each registered variant whose id
matches the assignment's "id" field, fire the start event and invoke the
variant's callback.  When the assignment is absent, the member access
chosenVariant.id inside the loop throws a TypeError on the first iteration,
so the call fails whenever the variant list is non-empty. -/
def Conical.start (c : Conical) (st : Store) : Except Err (List Ev) :=
  match c.getVariant st with
  | some chosenVariant =>
    .ok (c.variants.flatMap fun variant =>
      if jsonField chosenVariant "id" = some variant.id then
        [Ev.trigger "start" (some chosenVariant), Ev.run variant.id]
      else [])
  | none =>
    match c.variants with
    | [] => .ok []
    | _ :: _ => .error .typeError

/-- complete(): throw when already converted, otherwise read the current
assignment, set the conversion flag and fire the complete event with that
assignment. -/
def Conical.complete (c : Conical) (st : Store) :
    Except Err (Conical × List Ev) :=
  if c.hasConverted then .error .alreadyComplete
  else
    let chosenVariant := c.getVariant st
    .ok ({ c with hasConverted := true },
         [Ev.trigger "complete" chosenVariant])

/-- The cumulative weight of the variants up to and including index `i`. -/
def cumWeight (variants : List Variant) (i : Nat) : ℚ :=
  ((variants.take (i + 1)).map Variant.weight).sum

theorem Store.get_set_self (st : Store) (k : String) (v : StoreVal) :
    Store.get (Store.set st k v) k = some v := by
  induction st with
  | nil => simp [Store.set, Store.get]
  | cons p rest ih =>
    obtain ⟨k', v'⟩ := p
    by_cases h : k' = k
    · simp [Store.set, Store.get, h]
    · simp [Store.set, Store.get, h, ih]

theorem Store.get_remove_self (st : Store) (k : String) :
    Store.get (Store.remove st k) k = none := by
  induction st with
  | nil => simp [Store.remove, Store.get]
  | cons p rest ih =>
    obtain ⟨k', v'⟩ := p
    by_cases h : k' = k
    · simp [Store.remove, h, ih]
    · simp [Store.remove, Store.get, h, ih]

theorem Conical.getVariant_setVariant (c : Conical) (st : Store) (vid : String) :
    c.getVariant (c.setVariant st vid) = some [("id", vid)] := by
  simp [Conical.getVariant, Conical.setVariant, Store.get_set_self]

theorem Conical.getVariant_clearVariant (c : Conical) (st : Store) :
    c.getVariant (c.clearVariant st) = none := by
  simp [Conical.getVariant, Conical.clearVariant, Store.get_remove_self]

theorem cumWeight_zero (v : Variant) (vs : List Variant) :
    cumWeight (v :: vs) 0 = v.weight := by
  simp [cumWeight]

theorem cumWeight_succ (v : Variant) (vs : List Variant) (j : Nat) :
    cumWeight (v :: vs) (j + 1) = v.weight + cumWeight vs j := by
  simp [cumWeight, List.take_succ_cons]

theorem allocateVariantGo_select (r : ℚ) (vs : List Variant) :
    ∀ (acc : ℚ) (i : Nat) (h : i < vs.length),
      r ≤ acc + cumWeight vs i →
      (∀ j, j < i → acc + cumWeight vs j < r) →
      allocateVariantGo r acc vs = (vs.get ⟨i, h⟩).id := by
  induction vs with
  | nil =>
    intro acc i h
    exact absurd h (by simp)
  | cons v vs ih =>
    intro acc i h hle hlt
    cases i with
    | zero =>
      have hge : acc + v.weight ≥ r := by simpa [cumWeight_zero] using hle
      simp [allocateVariantGo, hge]
    | succ i =>
      have h0 : acc + v.weight < r := by
        simpa [cumWeight_zero] using hlt 0 (Nat.succ_pos i)
      have hlen : i < vs.length := Nat.lt_of_succ_lt_succ (by simpa using h)
      have step : allocateVariantGo r acc (v :: vs) =
          allocateVariantGo r (acc + v.weight) vs := by
        simp [allocateVariantGo, h0.not_le]
      rw [step]
      have hle' : r ≤ acc + v.weight + cumWeight vs i := by
        rw [cumWeight_succ] at hle; linarith
      have hlt' : ∀ j, j < i → acc + v.weight + cumWeight vs j < r := by
        intro j hj
        have := hlt (j + 1) (Nat.succ_lt_succ hj)
        rw [cumWeight_succ] at this; linarith
      rw [ih (acc + v.weight) i hlen hle' hlt']
      rfl

theorem allocateVariantGo_sentinel (r : ℚ) (vs : List Variant) :
    ∀ (acc : ℚ), (∀ j, j < vs.length → acc + cumWeight vs j < r) →
      allocateVariantGo r acc vs = "no-chosen-variant" := by
  induction vs with
  | nil => intro acc _; rfl
  | cons v vs ih =>
    intro acc hlt
    have h0 : acc + v.weight < r := by
      simpa [cumWeight_zero] using hlt 0 (by simp)
    have step : allocateVariantGo r acc (v :: vs) =
        allocateVariantGo r (acc + v.weight) vs := by
      simp [allocateVariantGo, h0.not_le]
    rw [step]
    refine ih _ (fun j hj => ?_)
    have := hlt (j + 1) (by simpa using Nat.succ_lt_succ hj)
    rw [cumWeight_succ] at this; linarith

/-- A concrete eligible experiment with one certain variant, for
instantiating segmentation theorems. -/
def c1Exp : Conical := ⟨"e", 1, none, false, [⟨"A", 1⟩]⟩

/-- A concrete world: user id 3 persisted, draws fixed at 1/2. -/
def c1World : World := ⟨[(uidKey, .numStr 3)], fun _ => 1/2, 0⟩

/-- Claim C1: in segment()'s weighted draw, the first variant (in
registration order) whose cumulative weight is ≥ the draw r is selected; when
no prefix sum reaches r the sentinel no-chosen-variant is persisted and no
error is raised; in particular with A(0.3) then B(0.7) and r = 0.347, B is
selected. -/
theorem c1_weighted_draw :
    (∀ (vs : List Variant) (r : ℚ) (i : Nat) (h : i < vs.length),
        r ≤ cumWeight vs i → (∀ j, j < i → cumWeight vs j < r) →
        allocateVariant vs r = (vs.get ⟨i, h⟩).id)
    ∧ (∀ (vs : List Variant) (r : ℚ),
        (∀ j, j < vs.length → cumWeight vs j < r) →
        allocateVariant vs r = "no-chosen-variant")
    ∧ (∀ (c : Conical) (now : ℚ) (w : World),
        c.hasExpired now = false → c.variants ≠ [] →
        c.isParticipating w.store = false → c.canParticipate w.store = true →
        c.segment now w =
          ({ store := c.setVariant w.store
               (allocateVariant c.variants (w.rands w.ridx)),
             rands := w.rands, ridx := w.ridx + 1 }, none))
    ∧ allocateVariant [⟨"A", 3/10⟩, ⟨"B", 7/10⟩] (347/1000) = "B" := by
  refine ⟨?_, ?_, ?_, ?_⟩
  · intro vs r i h hle hlt
    have := allocateVariantGo_select r vs 0 i h (by simpa using hle)
      (fun j hj => by simpa using hlt j hj)
    simpa [allocateVariant] using this
  · intro vs r hlt
    have := allocateVariantGo_sentinel r vs 0 (fun j hj => by simpa using hlt j hj)
    simpa [allocateVariant] using this
  · intro c now w h1 h2 h3 h4
    have hlen : ¬ c.variants.length ≤ 0 := by
      simpa [Nat.le_zero, List.length_eq_zero] using h2
    simp [Conical.segment, h1, hlen, h3, h4, Conical.participating, World.draw]
  · norm_num [allocateVariant, allocateVariantGo]

/-- Witness for C1, instantiating each conjunct at concrete inputs. -/
theorem c1_weighted_draw_witness :
    allocateVariant [⟨"A", (1 : ℚ)⟩] (1/2) = "A"
    ∧ allocateVariant ([] : List Variant) 1 = "no-chosen-variant"
    ∧ c1Exp.segment 0 c1World =
        ({ store := c1Exp.setVariant c1World.store
             (allocateVariant c1Exp.variants (c1World.rands c1World.ridx)),
           rands := c1World.rands, ridx := c1World.ridx + 1 }, none)
    ∧ allocateVariant [⟨"A", 3/10⟩, ⟨"B", 7/10⟩] (347/1000) = "B" := by
  refine ⟨?_, ?_, ?_, c1_weighted_draw.2.2.2⟩
  · exact c1_weighted_draw.1 [⟨"A", (1 : ℚ)⟩] (1/2) 0 (by simp)
      (by norm_num [cumWeight]) (fun j hj => absurd hj (Nat.not_lt_zero j))
  · exact c1_weighted_draw.2.1 [] 1 (fun j hj => absurd hj (by simp))
  · exact c1_weighted_draw.2.2.1 c1Exp 0 c1World rfl (by simp [c1Exp]) rfl
      (by norm_num [Conical.canParticipate, getId, Store.get, c1World, c1Exp, uidKey])

/-- A concrete experiment and store for instantiating the eligibility
theorem: user id 3 persisted, full sample size. -/
def c2Exp : Conical := ⟨"e", 1, none, false, []⟩

/-- Store holding only the persisted user id 3. -/
def c2Store : Store := [(uidKey, .numStr 3)]

/-- Claim C2: canParticipate() treats the user as eligible iff the persisted
UserIdentity is below 100000 * clamp(sampleSize, 0, 1); sampleSize 0 makes no
user eligible and sampleSize 1 makes every user (identity below 100000)
eligible. -/
theorem c2_can_participate :
    ∀ (c : Conical) (st : Store) (uid : Nat), getId st = some uid →
      (c.canParticipate st = true ↔
        (uid : ℚ) < 100000 * min (max c.sampleSize 0) 1)
      ∧ (c.sampleSize = 0 → c.canParticipate st = false)
      ∧ (c.sampleSize = 1 → uid < 100000 → c.canParticipate st = true) := by
  intro c st uid h
  have hc : c.canParticipate st =
      decide ((uid : ℚ) < 100000 * min (max c.sampleSize 0) 1) := by
    simp [Conical.canParticipate, h]
  refine ⟨?_, ?_, ?_⟩
  · rw [hc]; simp
  · intro hs
    rw [hc, hs]
    have h1 : min (max (0 : ℚ) 0) 1 = 0 := by norm_num
    rw [h1]
    simp
  · intro hs hlt
    rw [hc, hs]
    have h1 : min (max (1 : ℚ) 0) 1 = 1 := by norm_num
    rw [h1]
    simp
    exact_mod_cast hlt

/-- Witness for C2: user id 3 with sampleSize 1 is eligible. -/
theorem c2_can_participate_witness : c2Exp.canParticipate c2Store = true :=
  (c2_can_participate c2Exp c2Store 3 rfl).2.2 rfl (by norm_num)

/-- A concrete experiment with one variant, already segmented in c3World. -/
def c3Exp : Conical := ⟨"e", 1, none, false, [⟨"A", 1⟩]⟩

/-- A concrete world where an assignment for c3Exp is already persisted. -/
def c3World : World :=
  ⟨[("experiment_e", .json [("id", "A")]), (uidKey, .numStr 3)], fun _ => 0, 0⟩

/-- Claim C3: segment() is idempotent: on a non-expired experiment with at
least one variant, if an assignment is already persisted the call returns
without error and changes nothing; and a second segment() after a successful
one returns the same world without error. -/
theorem c3_segment_idempotent :
    ∀ (c : Conical) (now : ℚ) (w : World),
      (c.hasExpired now = false → c.variants ≠ [] →
        c.isParticipating w.store = true → c.segment now w = (w, none))
      ∧ ∀ w', c.segment now w = (w', none) → c.segment now w' = (w', none) := by
  intro c now w
  have hvar : ∀ (st : Store) (vid : String),
      c.isParticipating (c.setVariant st vid) = true := by
    intro st vid
    simp [Conical.isParticipating, Conical.getVariant_setVariant]
  constructor
  · intro h1 h2 h3
    have hlen : ¬ c.variants.length ≤ 0 := by
      simpa [Nat.le_zero, List.length_eq_zero] using h2
    simp [Conical.segment, h1, hlen, h3]
  · intro w' hseg
    by_cases h1 : c.hasExpired now
    · simp [Conical.segment, h1] at hseg
    · by_cases h2 : c.variants.length ≤ 0
      · simp [Conical.segment, h1, h2] at hseg
      · by_cases h3 : c.isParticipating w.store
        · simp [Conical.segment, h1, h2, h3] at hseg
          subst hseg
          simp [Conical.segment, h1, h2, h3]
        · by_cases h4 : c.canParticipate w.store
          · simp [Conical.segment, h1, h2, h3, h4] at hseg
            subst hseg
            have hp : c.isParticipating (c.participating w).store = true := by
              simp [Conical.participating, World.draw, hvar]
            simp [Conical.segment, h1, h2, hp]
          · simp [Conical.segment, h1, h2, h3, h4] at hseg
            subst hseg
            have hp : c.isParticipating (c.notParticipating w).store = true := by
              simp [Conical.notParticipating, hvar]
            simp [Conical.segment, h1, h2, hp]

/-- Witness for C3: with an assignment already persisted, segment() is a
no-op, and running it again after that is still a no-op. -/
theorem c3_segment_idempotent_witness :
    c3Exp.segment 0 c3World = (c3World, none)
    ∧ c3Exp.segment 0 c3World = (c3World, none) := by
  have hfst := (c3_segment_idempotent c3Exp 0 c3World).1 rfl
    (by simp [c3Exp]) (by decide)
  exact ⟨hfst, (c3_segment_idempotent c3Exp 0 c3World).2 c3World hfst⟩

/-- A concrete world whose persisted user identity is the falsy value 0. -/
def c4World : World := ⟨[(uidKey, .numStr 0)], fun _ => 1/2, 0⟩

/-- A concrete world whose persisted user identity is 3. -/
def c4WitnessWorld : World := ⟨[(uidKey, .numStr 3)], fun _ => 0, 0⟩

/-- Counterexample to C4 as stated: the persisted identity 0 lies in
[0, 100000), yet constructing an experiment regenerates the identity (the
store afterwards holds 50000, from the draw 1/2), because hasId() tests
JavaScript truthiness and 0 is falsy. -/
theorem c4_counterexample :
    getId c4World.store = some 0
    ∧ (mkConical (some "e") {} c4World).map (fun p => getId p.2.store) =
        .ok (some 50000)
    ∧ some 50000 ≠ some 0 := by
  refine ⟨rfl, ?_, by decide⟩
  norm_num [mkConical, assignId, hasId, getId, c4World, uidKey, World.draw,
    setId, Store.set, Store.get]
  simp [Except.map, Store.get]

/-- Claim C4 (amended to nonzero persisted identities): when the store
already holds an identity n with 1 ≤ n < 100000, construction neither draws
randomness nor writes the store, so any number of constructions read back the
same identity. -/
theorem c4_identity_reused :
    ∀ (s : String) (opts : Options) (w : World) (n : Nat),
      s ≠ "undefined" → getId w.store = some n → n ≠ 0 → n < 100000 →
      mkConical (some s) opts w =
        .ok ({ id := s, sampleSize := opts.sampleSize, expiry := opts.expiry,
               hasConverted := false, variants := [] }, w) := by
  intro s opts w n hs hn h0 _
  have hid : hasId w.store = true := by simp [hasId, hn, h0]
  simp [mkConical, hs, assignId, hid]

/-- Witness for C4: with identity 3 persisted, construction returns the
world untouched. -/
theorem c4_identity_reused_witness :
    mkConical (some "e") {} c4WitnessWorld =
      .ok ({ id := "e", sampleSize := 1, expiry := none,
             hasConverted := false, variants := [] }, c4WitnessWorld) :=
  c4_identity_reused "e" {} c4WitnessWorld 3 (by decide) rfl
    (by decide) (by decide)

/-- A concrete experiment with one registered variant. -/
def c5Exp : Conical := ⟨"e", 1, none, false, [⟨"v", 1/2⟩]⟩

/-- Counterexample to C5 as stated: with one registered variant and no
persisted assignment, start() is not failure-free — the member access
chosenVariant.id on undefined throws a TypeError. -/
theorem c5_counterexample :
    c5Exp.getVariant [] = none
    ∧ c5Exp.variants ≠ []
    ∧ c5Exp.start [] = .error .typeError :=
  ⟨rfl, by simp [c5Exp], rfl⟩

/-- Claim C5 (amended): when no assignment is persisted, getVariant() is
undefined and start() fires no event and runs no action; but instead of
being a silent no-op it throws a TypeError whenever at least one variant is
registered (only a variant-less experiment returns cleanly). -/
theorem c5_start_no_assignment :
    ∀ (c : Conical) (st : Store), c.getVariant st = none →
      c.start st = (if c.variants.isEmpty then .ok [] else .error .typeError) := by
  intro c st h
  cases hv : c.variants with
  | nil => simp [Conical.start, h, hv]
  | cons v vs => simp [Conical.start, h, hv]

/-- Witness for C5: the concrete one-variant experiment with an empty store
throws the TypeError. -/
theorem c5_start_no_assignment_witness :
    c5Exp.start [] = (if c5Exp.variants.isEmpty then .ok [] else .error .typeError) :=
  c5_start_no_assignment c5Exp [] rfl

/-- A concrete unconverted experiment for the completion theorem. -/
def c6Exp : Conical := ⟨"e", 1, none, false, [⟨"v", 1/2⟩]⟩

/-- Claim C6: complete() succeeds at most once per instance: the first call
flips hasConverted from false to true and fires the complete event with the
current assignment; any call on a converted instance fails with the
already-completed error and changes nothing. -/
theorem c6_complete_once :
    ∀ (c : Conical) (st st' : Store),
      (c.hasConverted = false →
        c.complete st = .ok ({ c with hasConverted := true },
          [Ev.trigger "complete" (c.getVariant st)])
        ∧ ({ c with hasConverted := true } : Conical).complete st' =
            .error .alreadyComplete)
      ∧ (c.hasConverted = true → c.complete st = .error .alreadyComplete) := by
  intro c st st'
  constructor
  · intro h
    constructor
    · simp [Conical.complete, h]
    · simp [Conical.complete]
  · intro h
    simp [Conical.complete, h]

/-- Witness for C6: the first completion succeeds and fires the event, the
second fails. -/
theorem c6_complete_once_witness :
    c6Exp.complete [] = .ok ({ c6Exp with hasConverted := true },
      [Ev.trigger "complete" (c6Exp.getVariant [])])
    ∧ ({ c6Exp with hasConverted := true } : Conical).complete [] =
        .error .alreadyComplete :=
  ((c6_complete_once c6Exp [] []).1 rfl)

/-- A concrete variant-less experiment whose assignment is persisted. -/
def c7Exp : Conical := ⟨"x", 1, none, false, []⟩

/-- A concrete world with an assignment persisted for c7Exp. -/
def c7World : World := ⟨[("experiment_x", .json [("id", "A")])], fun _ => 0, 0⟩

/-- A concrete expired experiment (expiry 0, called at time 1). -/
def c7ExpiredExp : Conical := ⟨"e", 1, some 0, false, [⟨"A", 1⟩]⟩

/-- A concrete world with an assignment persisted for c7ExpiredExp. -/
def c7ExpiredWorld : World :=
  ⟨[("experiment_e", .json [("id", "A")])], fun _ => 0, 0⟩

/-- The world left behind by the expired segment() call: assignment cleared. -/
def c7ExpiredWorldAfter : World := ⟨[], fun _ => 0, 0⟩

/-- Counterexample to C7 as stated: segment() on a variant-less experiment
with a persisted assignment fails with the no-variants error and the
assignment is still persisted after the call. -/
theorem c7_counterexample :
    c7Exp.segment 0 c7World = (c7World, some .noVariants)
    ∧ c7Exp.getVariant c7World.store = some [("id", "A")] :=
  ⟨rfl, by decide⟩

/-- Claim C7 (amended): a segment() failure with the expired error leaves no
assignment persisted (the expired branch clears it before throwing), while a
failure with the no-variants error leaves the store exactly as it was — so a
pre-existing assignment survives that failure. -/
theorem c7_segment_failure_stores :
    ∀ (c : Conical) (now : ℚ) (w w' : World),
      (c.segment now w = (w', some .expired) → c.getVariant w'.store = none)
      ∧ (c.segment now w = (w', some .noVariants) → w' = w) := by
  intro c now w w'
  constructor
  · intro hseg
    by_cases h1 : c.hasExpired now
    · simp [Conical.segment, h1] at hseg
      rw [← hseg]
      exact c.getVariant_clearVariant w.store
    · by_cases h2 : c.variants.length ≤ 0
      · simp [Conical.segment, h1, h2] at hseg
      · by_cases h3 : c.isParticipating w.store
        · simp [Conical.segment, h1, h2, h3] at hseg
        · by_cases h4 : c.canParticipate w.store
          · simp [Conical.segment, h1, h2, h3, h4] at hseg
          · simp [Conical.segment, h1, h2, h3, h4] at hseg
  · intro hseg
    by_cases h1 : c.hasExpired now
    · simp [Conical.segment, h1] at hseg
    · by_cases h2 : c.variants.length ≤ 0
      · simp [Conical.segment, h1, h2] at hseg
        exact hseg.symm
      · by_cases h3 : c.isParticipating w.store
        · simp [Conical.segment, h1, h2, h3] at hseg
        · by_cases h4 : c.canParticipate w.store
          · simp [Conical.segment, h1, h2, h3, h4] at hseg
          · simp [Conical.segment, h1, h2, h3, h4] at hseg

/-- Witness for C7: the expired failure leaves no assignment, and the
no-variants failure returns the world unchanged. -/
theorem c7_segment_failure_stores_witness :
    c7ExpiredExp.getVariant c7ExpiredWorldAfter.store = none
    ∧ c7World = c7World := by
  constructor
  · refine (c7_segment_failure_stores c7ExpiredExp 1 c7ExpiredWorld
      c7ExpiredWorldAfter).1 ?_
    have hexp : c7ExpiredExp.hasExpired 1 = true := by
      norm_num [Conical.hasExpired, c7ExpiredExp]
    rw [Conical.segment, if_pos hexp]
    rfl
  · exact (c7_segment_failure_stores c7Exp 0 c7World c7World).2 rfl

/-- A concrete experiment with id exp1, for the assignment-format claim. -/
def c8Exp : Conical := ⟨"exp1", 1, none, false, []⟩

/-- Counterexample to C8 as stated: the persisted assignment value is the
JSON object with field name id, not variantId. -/
theorem c8_counterexample :
    Store.get (c8Exp.setVariant [] "A") "experiment_exp1" =
      some (.json [("id", "A")])
    ∧ Store.get (c8Exp.setVariant [] "A") "experiment_exp1" ≠
        some (.json [("variantId", "A")]) := by
  decide

/-- Claim C8 (amended): every persisted assignment lives under the key
"experiment_" ++ experimentId and its value is the JSON object whose single
field id holds the chosen variant (or sentinel) identifier. -/
theorem c8_assignment_format :
    ∀ (c : Conical) (st : Store) (variantId : String),
      Store.get (c.setVariant st variantId) ("experiment_" ++ c.id) =
        some (.json [("id", variantId)]) := by
  intro c st variantId
  simpa [Conical.setVariant, Conical.experimentKey] using
    Store.get_set_self st ("experiment_" ++ c.id) (.json [("id", variantId)])

/-- A concrete world for the constructor-validation claim. -/
def c9World : World := ⟨[(uidKey, .numStr 3)], fun _ => 0, 0⟩

/-- Counterexample to C9 as stated: the empty string id is accepted (though
it is not a non-empty string), while the non-empty string id undefined is
rejected. -/
theorem c9_counterexample :
    (mkConical (some "") {} c9World).map (fun p => p.1.id) = .ok ""
    ∧ mkConical (some "undefined") {} c9World = .error .validation :=
  ⟨rfl, rfl⟩

/-- Claim C9 (amended): construction fails with the validation error iff the
id is not a string or is the literal string undefined; every other string id
(the empty string included) is accepted and carried as the experiment id. -/
theorem c9_constructor_validation :
    ∀ (id : Option String) (opts : Options) (w : World),
      (mkConical id opts w = .error .validation ↔
        id = none ∨ id = some "undefined")
      ∧ ∀ s, s ≠ "undefined" →
          (mkConical (some s) opts w).map (fun p => p.1.id) = .ok s := by
  intro id opts w
  constructor
  · match id with
    | none => simp [mkConical]
    | some s =>
      by_cases hs : s = "undefined"
      · subst hs; simp [mkConical]
      · simp [mkConical, hs]
  · intro s hs
    simp [mkConical, hs, Except.map]

/-- Witness for C9: the ordinary id abc is accepted and carried. -/
theorem c9_constructor_validation_witness :
    (mkConical (some "abc") {} c9World).map (fun p => p.1.id) = .ok "abc" :=
  (c9_constructor_validation (some "abc") {} c9World).2 "abc" (by decide)

/-- A concrete fresh experiment for the zero-weight claim. -/
def c10Exp : Conical := ⟨"e", 1, none, false, []⟩

/-- Claim C10: addVariant with an explicit weight of 0 stores the variant
with the default weight 0.5 (the falsy weight is replaced), and no variant
registered through addVariant ever carries weight 0. -/
theorem c10_zero_weight_defaulted :
    ∀ (c : Conical) (s : String), s ≠ "undefined" →
      c.addVariant (some s) (some 0) =
        .ok { c with variants := c.variants ++ [{ id := s, weight := 1/2 }] }
      ∧ ∀ (weight : Option ℚ), weightOrDefault weight ≠ 0 := by
  intro c s hs
  constructor
  · simp [Conical.addVariant, hs, weightOrDefault]
  · intro weight
    match weight with
    | none => norm_num [weightOrDefault]
    | some x =>
      by_cases hx : x = 0
      · subst hx; norm_num [weightOrDefault]
      · simp [weightOrDefault, hx]

/-- Witness for C10: adding a variant v with weight 0 stores weight 0.5. -/
theorem c10_zero_weight_defaulted_witness :
    c10Exp.addVariant (some "v") (some 0) =
      .ok { c10Exp with variants := c10Exp.variants ++ [{ id := "v", weight := 1/2 }] } :=
  (c10_zero_weight_defaulted c10Exp "v" (by decide)).1
